import Mathlib

/-!
Verification of the client-side playback-tracking state machine of
`streamlit-video-state-player` (`src/streamlit_video_state_player/video_player.py`).

The JavaScript block `_JS` (lines 64-240 of `video_player.py`) is shallowly
embedded below: the mutable per-instance variables (`detectedFps`,
`fpsDetectionComplete`, `lastUpdateTime`, `lastSeekTo`, the FPS-sampling
session and the pending one-shot seek listeners) become fields of an explicit
`CompState`; the media element's observable properties become a `VideoEl`
record supplied with each event; wall-clock times are naturals (milliseconds,
`Date.now()`), media times and rates are rationals.  Event handlers become a
`step` function over an event enumeration, and whole executions are folds
(`run`) over event traces.  The Python host-side source preparation
(`_prepare_video_source`, `video_player`) is embedded separately with the
filesystem, base64 encoder and MIME guesser as explicit parameters.
-/

namespace VideoStatePlayer

/-- JavaScript `Math.round`: round half toward positive infinity. -/
def jsRound (x : ℚ) : ℤ := ⌊x + 1/2⌋

/-- JavaScript `x || 0` for a non-NaN number `x` (used on `video.currentTime`,
which the DOM never makes NaN): yields `0` when `x` is `0`, else `x`. -/
def orZero (x : ℚ) : ℚ := if x = 0 then 0 else x

/-- JavaScript `x || 0` for `video.duration`, which is NaN (`none`) until
metadata loads. -/
def durOrZero : Option ℚ → ℚ
  | none => 0
  | some d => if d = 0 then 0 else d

/-- Observable properties of the `<video>` element at one instant. -/
structure VideoEl where
  currentTime : ℚ
  duration : Option ℚ
  paused : Bool
  ended : Bool
  readyState : ℕ
  autoplay : Bool
  loop : Bool
deriving DecidableEq, Repr

/-- The state object built in `updateState` (lines 175-181) and sent to the
host via `setStateValue`. -/
structure PlaybackState where
  current_time : ℚ
  frame_number : ℤ
  duration : ℚ
  fps : ℚ
  is_playing : Bool
deriving DecidableEq, Repr

/-- The per-instance mutable variables of the `_JS` closure (lines 72-77),
together with the FPS-sampling session of `detectFps` (lines 125-152) and the
one-shot deferred-seek listeners registered at line 108. -/
structure CompState where
  detectedFps : ℚ
  fpsDetectionComplete : Bool
  lastUpdateTime : ℕ
  lastSeekTo : Option ℚ
  startTime : Option ℕ
  frameCount : ℕ
  playListenerArmed : Bool
  samplerPending : Bool
  pendingSeeks : List ℚ
deriving DecidableEq, Repr

/-- `UPDATE_THROTTLE_MS` (line 76). -/
def UPDATE_THROTTLE_MS : ℕ := 250

/-- `SAMPLE_DURATION_MS` (line 127). -/
def SAMPLE_DURATION_MS : ℕ := 1000

/-- `Math.floor(video.currentTime * detectedFps)` (lines 158-160). -/
def getCurrentFrame (v : VideoEl) (fps : ℚ) : ℤ := ⌊v.currentTime * fps⌋

/-- The snapshot built at lines 175-181 from the element's live properties and
the current `detectedFps`. -/
def mkState (v : VideoEl) (fps : ℚ) : PlaybackState :=
  { current_time := orZero v.currentTime
    frame_number := getCurrentFrame v fps
    duration := durOrZero v.duration
    fps := fps
    is_playing := !v.paused && !v.ended }

/-- `updateState(force)` (lines 165-187): unless forced, a call within
`UPDATE_THROTTLE_MS` of the last recorded emission is a no-op; otherwise the
emission timestamp is recorded and a snapshot is emitted.  `now` is
`Date.now()`; natural subtraction agrees with the JS comparison
`now - lastUpdateTime < 250` also when the clock reads below the recorded
stamp (a negative JS difference is `< 250`, and truncated subtraction gives
`0 < 250`). -/
def updateState (force : Bool) (now : ℕ) (v : VideoEl) (s : CompState) :
    CompState × Option PlaybackState :=
  if !force && now - s.lastUpdateTime < UPDATE_THROTTLE_MS then (s, none)
  else ({ s with lastUpdateTime := now }, some (mkState v s.detectedFps))

/-- `countFrame(now, metadata)` (lines 129-145), entered with the pending
`requestVideoFrameCallback` already consumed: on the first call the session
start is recorded and the counter reset; the counter is incremented; once the
sample window is full, `detectedFps` becomes
`Math.round(frameCount / ((now - startTime) / 1000))`, the session is marked
converged and one forced emission follows; otherwise the callback re-arms. -/
def countFrame (now : ℕ) (v : VideoEl) (s : CompState) :
    CompState × Option PlaybackState :=
  let start := s.startTime.getD now
  let fc := (if s.startTime.isNone then 0 else s.frameCount) + 1
  if SAMPLE_DURATION_MS ≤ now - start then
    updateState true now v
      { s with startTime := some start, frameCount := fc,
               detectedFps := (jsRound ((fc : ℚ) / (((now - start : ℕ) : ℚ) / 1000)) : ℚ),
               fpsDetectionComplete := true,
               samplerPending := false }
  else
    ({ s with startTime := some start, frameCount := fc, samplerPending := true }, none)

/-- The seek gate (lines 103-112): act only when the host target is neither
null nor undefined (`none`) and differs from the last acted-on target; record
it, then set the position immediately when metadata is loaded
(`readyState >= 1`), else register a one-shot `loadedmetadata` listener that
will set it. -/
def seekGate (target : Option ℚ) (s : CompState) (v : VideoEl) :
    CompState × VideoEl :=
  match target with
  | none => (s, v)
  | some t =>
    if s.lastSeekTo = some t then (s, v)
    else
      let s1 := { s with lastSeekTo := some t }
      if 1 ≤ v.readyState then (s1, { v with currentTime := t })
      else ({ s1 with pendingSeeks := s1.pendingSeeks ++ [t] }, v)

/-- Firing of the one-shot `loadedmetadata` seek listeners (lines 108-110):
each registered listener runs once, in registration order, setting
`video.currentTime` to its captured target; all are then gone. -/
def applyPending (s : CompState) (v : VideoEl) : CompState × VideoEl :=
  ({ s with pendingSeeks := [] },
   match s.pendingSeeks.getLast? with
   | none => v
   | some t => { v with currentTime := t })

/-- The `autoplay` / `loop` configuration block (lines 92-100): each flag is
set to `true` when the host value is truthy and left untouched otherwise. -/
def applyConfig (autoplay loop : Bool) (v : VideoEl) : VideoEl :=
  let v1 := if autoplay then { v with autoplay := true } else v
  if loop then { v1 with loop := true } else v1

/-- The events the `_JS` closure reacts to: `mount` is the initial forced
update at line 233; the six native media events are the listeners at lines
204-227; `raf` is one tick of the `startPlaybackUpdates` animation loop
(lines 193-201); `frame` is delivery of a pending
`requestVideoFrameCallback`. -/
inductive Ev
  | mount | loadedmetadata | play | pause | seeked | ended | timeupdate | raf | frame
deriving DecidableEq, Repr

/-- One event occurrence: the event kind, the wall clock at delivery, and the
element's observable properties at that instant. -/
structure EvIn where
  ev : Ev
  now : ℕ
  v : VideoEl
deriving DecidableEq, Repr

/-- One outbound emission: when it happened, whether it was forced, the
element readings it was computed from, and the snapshot sent to the host. -/
structure Emission where
  time : ℕ
  forced : Bool
  el : VideoEl
  snap : PlaybackState
deriving DecidableEq, Repr

/-- Tag an `updateState` result with the emission metadata. -/
def emitOf (e : EvIn) (force : Bool) (el : VideoEl)
    (p : CompState × Option PlaybackState) : CompState × Option Emission :=
  (p.1, p.2.map fun snap => { time := e.now, forced := force, el := el, snap := snap })

/-- One reaction of the `_JS` closure to an event, in the listeners'
registration order: on `play` the line-208 listener (forced update) runs
before the once-only `startDetection` listener registered by `detectFps`
(line 148), which arms the frame sampler only while detection is incomplete;
`loadedmetadata` first fires the earlier-registered one-shot seek listeners,
then the line-204 forced update; the animation tick updates only while
actively playing; a `frame` callback is delivered only when one is pending. -/
def step (s : CompState) (e : EvIn) : CompState × Option Emission :=
  match e.ev with
  | .mount => emitOf e true e.v (updateState true e.now e.v s)
  | .loadedmetadata =>
      let p := applyPending s e.v
      emitOf e true p.2 (updateState true e.now p.2 p.1)
  | .play =>
      let p := updateState true e.now e.v s
      let s2 := if p.1.playListenerArmed then
          { p.1 with playListenerArmed := false,
                     samplerPending := !p.1.fpsDetectionComplete }
        else p.1
      emitOf e true e.v (s2, p.2)
  | .pause => emitOf e true e.v (updateState true e.now e.v s)
  | .seeked => emitOf e true e.v (updateState true e.now e.v s)
  | .ended => emitOf e true e.v (updateState true e.now e.v s)
  | .timeupdate => emitOf e false e.v (updateState false e.now e.v s)
  | .raf =>
      if !e.v.paused && !e.v.ended then
        emitOf e false e.v (updateState false e.now e.v s)
      else (s, none)
  | .frame =>
      if s.samplerPending then
        emitOf e true e.v (countFrame e.now e.v { s with samplerPending := false })
      else (s, none)

/-- The closure's variables right after initialisation (lines 72-77), with
`cap` recording whether `requestVideoFrameCallback` exists: when it does not,
`detectFps` returns at line 122 without registering the `play` listener. -/
def initState (cap : Bool) : CompState :=
  { detectedFps := 30, fpsDetectionComplete := false, lastUpdateTime := 0,
    lastSeekTo := none, startTime := none, frameCount := 0,
    playListenerArmed := cap, samplerPending := false, pendingSeeks := [] }

/-- Run the closure over a trace of events, collecting every emission. -/
def run (s : CompState) : List EvIn → CompState × List Emission
  | [] => (s, [])
  | e :: es =>
    let p := step s e
    let r := run p.1 es
    (r.1, p.2.toList ++ r.2)

@[simp] theorem run_nil (s : CompState) : run s [] = (s, []) := rfl

theorem run_cons (s : CompState) (e : EvIn) (es : List EvIn) :
    run s (e :: es) =
      ((run (step s e).1 es).1, (step s e).2.toList ++ (run (step s e).1 es).2) := rfl

/-! ### Basic facts about the embedded operations -/

theorem orZero_eq (x : ℚ) : orZero x = x := by
  unfold orZero; split <;> simp [*]

theorem updateState_noop (s : CompState) (v : VideoEl) (now : ℕ)
    (h : now - s.lastUpdateTime < UPDATE_THROTTLE_MS) :
    updateState false now v s = (s, none) := by
  simp [updateState, h]

theorem updateState_emit (s : CompState) (v : VideoEl) (now : ℕ)
    (h : ¬ now - s.lastUpdateTime < UPDATE_THROTTLE_MS) :
    updateState false now v s =
      ({ s with lastUpdateTime := now }, some (mkState v s.detectedFps)) := by
  simp [updateState, h]

theorem updateState_forced (s : CompState) (v : VideoEl) (now : ℕ) :
    updateState true now v s =
      ({ s with lastUpdateTime := now }, some (mkState v s.detectedFps)) := by
  simp [updateState]

theorem mkState_frame (v : VideoEl) (fps : ℚ) :
    (mkState v fps).frame_number =
      ⌊(mkState v fps).current_time * (mkState v fps).fps⌋ := by
  simp [mkState, getCurrentFrame, orZero_eq]

theorem emitOf_some {e : EvIn} {force : Bool} {el : VideoEl}
    {p : CompState × Option PlaybackState} {em : Emission}
    (h : (emitOf e force el p).2 = some em) :
    ∃ snap, p.2 = some snap ∧
      em = { time := e.now, forced := force, el := el, snap := snap } := by
  simp only [emitOf, Option.map_eq_some'] at h
  obtain ⟨snap, h1, h2⟩ := h
  exact ⟨snap, h1, h2.symm⟩

theorem updateState_snap_eq {force : Bool} {now : ℕ} {v : VideoEl} {s : CompState}
    {snap : PlaybackState} (h : (updateState force now v s).2 = some snap) :
    snap = mkState v s.detectedFps := by
  unfold updateState at h
  split at h <;> simp_all

theorem countFrame_snap_eq {now : ℕ} {v : VideoEl} {s : CompState}
    {snap : PlaybackState} (h : (countFrame now v s).2 = some snap) :
    ∃ f, snap = mkState v f := by
  simp only [countFrame] at h
  split at h
  · exact ⟨_, updateState_snap_eq h⟩
  · simp at h

/-- Every snapshot a step emits is `mkState` of the element readings recorded
with the emission, at the snapshot's own rate. -/
theorem step_emission_shape (s : CompState) (e : EvIn) (em : Emission)
    (h : (step s e).2 = some em) : em.snap = mkState em.el em.snap.fps := by
  rcases e with ⟨ev, now, v⟩
  cases ev
  case loadedmetadata =>
    simp only [step] at h
    obtain ⟨snap, hs, rfl⟩ := emitOf_some h
    have h2 := updateState_snap_eq hs
    subst h2; rfl
  case play =>
    simp only [step] at h
    obtain ⟨snap, hs, rfl⟩ := emitOf_some h
    have h2 := updateState_snap_eq hs
    subst h2; rfl
  case raf =>
    simp only [step] at h
    split at h
    · obtain ⟨snap, hs, rfl⟩ := emitOf_some h
      have h2 := updateState_snap_eq hs
      subst h2; rfl
    · simp at h
  case frame =>
    simp only [step] at h
    split at h
    · obtain ⟨snap, hs, rfl⟩ := emitOf_some h
      obtain ⟨f, h2⟩ := countFrame_snap_eq hs
      subst h2; rfl
    · simp at h
  all_goals
    simp only [step] at h
    obtain ⟨snap, hs, rfl⟩ := emitOf_some h
    have h2 := updateState_snap_eq hs
    subst h2; rfl

/-- Generic invariant/emission induction over runs. -/
theorem run_invariant (P : CompState → Prop) (Q : Emission → Prop) (E : EvIn → Prop)
    (hstep : ∀ s e, P s → E e →
      P (step s e).1 ∧ ∀ em, (step s e).2 = some em → Q em) :
    ∀ (evs : List EvIn) (s : CompState), (∀ e ∈ evs, E e) → P s →
      P (run s evs).1 ∧ ∀ em ∈ (run s evs).2, Q em
  | [], s, _, hP => ⟨hP, by simp [run]⟩
  | e :: es, s, hE, hP => by
    have h1 := hstep s e hP (hE e (by simp))
    have ih := run_invariant P Q E hstep es (step s e).1
      (fun e' he' => hE e' (by simp [he'])) h1.1
    refine ⟨by rw [run_cons]; exact ih.1, ?_⟩
    intro em hem
    rw [run_cons] at hem
    simp only [List.mem_append] at hem
    rcases hem with hem | hem
    · rcases hmem : (step s e).2 with _ | em'
      · simp [hmem] at hem
      · simp only [hmem, Option.toList_some, List.mem_singleton] at hem
        subst hem
        exact h1.2 em hmem
    · exact ih.2 em hem

/-! ### Concrete fixtures used by witnesses and counterexamples -/

/-- A paused element before metadata. -/
def elZero : VideoEl :=
  { currentTime := 0, duration := none, paused := true, ended := false,
    readyState := 0, autoplay := false, loop := false }

/-- A playing element with loaded metadata. -/
def elPlaying : VideoEl :=
  { currentTime := 0, duration := some 10, paused := false, ended := false,
    readyState := 2, autoplay := false, loop := false }

/-- The spec scenario element: `currentTime = 2.5`. -/
def elScenario : VideoEl :=
  { currentTime := 5/2, duration := some 10, paused := false, ended := false,
    readyState := 2, autoplay := false, loop := false }

/-! ### C1 -/

/-- C1: for every emitted snapshot, `frame_number = ⌊current_time * fps⌋`
where `fps` is the rate recorded in the same snapshot (the rate known at
emission time, lines 158-160 and 175-181); and in the spec scenario — element
reports `currentTime = 2.5`, detected fps `24` — the emitted `frame_number`
is `60`. -/
theorem emitted_frame_number_floor :
    (∀ (cap : Bool) (evs : List EvIn), ∀ em ∈ (run (initState cap) evs).2,
        em.snap.frame_number = ⌊em.snap.current_time * em.snap.fps⌋) ∧
    (updateState true 0 elScenario
        { initState true with detectedFps := 24 }).2.map
          (fun snap => snap.frame_number) = some 60 := by
  constructor
  · intro cap evs em hem
    refine (run_invariant (fun _ => True)
      (fun em => em.snap.frame_number = ⌊em.snap.current_time * em.snap.fps⌋)
      (fun _ => True) ?_ evs (initState cap) (fun _ _ => trivial) trivial).2 em hem
    intro s e _ _
    refine ⟨trivial, fun em' hem' => ?_⟩
    have hshape := step_emission_shape s e em' hem'
    show em'.snap.frame_number = ⌊em'.snap.current_time * em'.snap.fps⌋
    rw [hshape]
    exact mkState_frame _ _
  · simp only [updateState_forced, Option.map_some', mkState, getCurrentFrame,
      elScenario, Option.some.injEq]
    norm_num

/-- Witness for C1 at a concrete one-event trace: the single `mount` emission
of a fresh instance satisfies the floor law. -/
theorem emitted_frame_number_floor_witness :
    ({ time := 0, forced := true, el := elScenario,
       snap := mkState elScenario 30 } : Emission).snap.frame_number =
      ⌊({ time := 0, forced := true, el := elScenario,
          snap := mkState elScenario 30 } : Emission).snap.current_time *
        ({ time := 0, forced := true, el := elScenario,
           snap := mkState elScenario 30 } : Emission).snap.fps⌋ :=
  emitted_frame_number_floor.1 true [⟨.mount, 0, elScenario⟩] _
    (by simp [run, step, emitOf, updateState_forced, initState])

/-! ### C10 -/

/-- C10: a forced emission always fires and records the emission timestamp
(line 173 runs for forced calls too), so a non-forced `updateState` within the
following `UPDATE_THROTTLE_MS` of wall clock is a no-op: the throttle is
measured from the last emission of either kind. -/
theorem forced_emission_records_timestamp :
    ∀ (s : CompState) (v v' : VideoEl) (now t : ℕ),
      (updateState true now v s).1.lastUpdateTime = now ∧
      (updateState true now v s).2.isSome = true ∧
      (t - now < UPDATE_THROTTLE_MS →
        updateState false t v' (updateState true now v s).1 =
          ((updateState true now v s).1, none)) := by
  intro s v v' now t
  have h1 : (updateState true now v s).1.lastUpdateTime = now := by
    simp [updateState_forced]
  refine ⟨h1, by simp [updateState_forced], fun h => ?_⟩
  exact updateState_noop _ _ _ (by rw [h1]; exact h)

/-- Witness for C10: a forced emission at `t = 5` makes the non-forced call at
`t = 100` (95 ms later) a no-op. -/
theorem forced_emission_records_timestamp_witness :
    (updateState true 5 elZero (initState true)).1.lastUpdateTime = 5 ∧
    updateState false 100 elZero (updateState true 5 elZero (initState true)).1 =
      ((updateState true 5 elZero (initState true)).1, none) :=
  ⟨(forced_emission_records_timestamp (initState true) elZero elZero 5 100).1,
   (forced_emission_records_timestamp (initState true) elZero elZero 5 100).2.2
     (by norm_num [UPDATE_THROTTLE_MS])⟩

/-! ### C2: throttling -/

/-- Times of the non-forced emissions, in order. -/
def nonforcedTimes (l : List Emission) : List ℕ :=
  (l.filter fun em => !em.forced).map fun em => em.time

theorem nonforcedTimes_append (l1 l2 : List Emission) :
    nonforcedTimes (l1 ++ l2) = nonforcedTimes l1 ++ nonforcedTimes l2 := by
  simp [nonforcedTimes]

theorem nonforcedTimes_cons_forced {em : Emission} (h : em.forced = true)
    (l : List Emission) : nonforcedTimes (em :: l) = nonforcedTimes l := by
  simp [nonforcedTimes, h]

theorem nonforcedTimes_cons_nonforced {em : Emission} (h : em.forced = false)
    (l : List Emission) :
    nonforcedTimes (em :: l) = em.time :: nonforcedTimes l := by
  simp [nonforcedTimes, h]

/-- When the sample window is full, `countFrame` converges and forces one
emission carrying the new rate, recording the emission timestamp. -/
theorem countFrame_conv {now : ℕ} {v : VideoEl} {s : CompState}
    (h : SAMPLE_DURATION_MS ≤ now - s.startTime.getD now) :
    ∃ s', countFrame now v s = (s', some (mkState v s'.detectedFps)) ∧
      s'.lastUpdateTime = now ∧ s'.fpsDetectionComplete = true ∧
      s'.samplerPending = false ∧
      s'.detectedFps =
        (jsRound ((((if s.startTime.isNone then 0 else s.frameCount) + 1 : ℕ) : ℚ) /
          (((now - s.startTime.getD now : ℕ) : ℚ) / 1000)) : ℚ) := by
  simp only [countFrame, h, if_true, updateState_forced]
  exact ⟨_, rfl, rfl, rfl, rfl, rfl⟩

/-- Before the sample window is full, `countFrame` only advances the session
and re-arms the callback. -/
theorem countFrame_rearm {now : ℕ} {v : VideoEl} {s : CompState}
    (h : ¬ SAMPLE_DURATION_MS ≤ now - s.startTime.getD now) :
    countFrame now v s =
      ({ s with startTime := some (s.startTime.getD now),
                frameCount := (if s.startTime.isNone then 0 else s.frameCount) + 1,
                samplerPending := true }, none) := by
  simp only [countFrame, h, if_false]

/-- Every step either emits nothing and leaves the emission timestamp alone,
or emits exactly one snapshot at the event's wall clock, records that clock as
the emission timestamp, and — when the emission is non-forced — was separated
from the previously recorded timestamp by at least the throttle interval. -/
theorem step_throttle_cases (s : CompState) (e : EvIn) :
    ((step s e).2 = none ∧ (step s e).1.lastUpdateTime = s.lastUpdateTime) ∨
    (∃ em, (step s e).2 = some em ∧ em.time = e.now ∧
      (step s e).1.lastUpdateTime = e.now ∧
      (em.forced = false → s.lastUpdateTime + UPDATE_THROTTLE_MS ≤ e.now)) := by
  rcases e with ⟨ev, now, v⟩
  cases ev
  case mount | pause | seeked | ended | loadedmetadata =>
    exact .inr ⟨_, rfl, rfl, rfl, fun h => by simp at h⟩
  case play =>
    refine .inr ⟨_, rfl, rfl, ?_, fun h => by simp at h⟩
    cases hpl : s.playListenerArmed <;>
      simp [step, emitOf, updateState_forced, hpl]
  case timeupdate =>
    by_cases h : now - s.lastUpdateTime < UPDATE_THROTTLE_MS
    · exact .inl (by simp [step, emitOf, updateState_noop _ _ _ h])
    · refine .inr ⟨⟨now, false, v, mkState v s.detectedFps⟩, ?_, rfl, ?_, ?_⟩
      · simp [step, emitOf, updateState_emit _ _ _ h]
      · simp [step, emitOf, updateState_emit _ _ _ h]
      · intro _
        simp only [UPDATE_THROTTLE_MS] at h ⊢
        omega
  case raf =>
    by_cases hp : (!v.paused && !v.ended) = true
    · by_cases h : now - s.lastUpdateTime < UPDATE_THROTTLE_MS
      · exact .inl (by simp [step, hp, emitOf, updateState_noop _ _ _ h])
      · refine .inr ⟨⟨now, false, v, mkState v s.detectedFps⟩, ?_, rfl, ?_, ?_⟩
        · simp [step, hp, emitOf, updateState_emit _ _ _ h]
        · simp [step, hp, emitOf, updateState_emit _ _ _ h]
        · intro _
          simp only [UPDATE_THROTTLE_MS] at h ⊢
          omega
    · exact .inl (by simp [step, hp])
  case frame =>
    by_cases hsp : s.samplerPending = true
    · by_cases hc : SAMPLE_DURATION_MS ≤
          now - ({ s with samplerPending := false } : CompState).startTime.getD now
      · obtain ⟨s', hcf, hlast, -, -, -⟩ := countFrame_conv (v := v) hc
        refine .inr ⟨⟨now, true, v, mkState v s'.detectedFps⟩, ?_, rfl, ?_,
          fun hx => by simp at hx⟩
        · simp [step, hsp, hcf, emitOf]
        · simp [step, hsp, hcf, emitOf, hlast]
      · exact .inl (by simp [step, hsp, countFrame, hc, emitOf])
    · exact .inl (by simp [step, hsp])

/-- Along any run whose event clocks are nondecreasing and start no earlier
than the recorded emission timestamp, consecutive non-forced emissions are at
least one throttle interval apart, and the first one is at least one throttle
interval after the initial timestamp. -/
theorem run_spacing :
    ∀ (evs : List EvIn) (s : CompState),
      List.Pairwise (fun e1 e2 : EvIn => e1.now ≤ e2.now) evs →
      (∀ e ∈ evs, s.lastUpdateTime ≤ e.now) →
      List.Chain' (fun t1 t2 => t1 + UPDATE_THROTTLE_MS ≤ t2)
        (nonforcedTimes (run s evs).2) ∧
      (∀ t, (nonforcedTimes (run s evs).2).head? = some t →
        s.lastUpdateTime + UPDATE_THROTTLE_MS ≤ t)
  | [], s, _, _ => by simp [run, nonforcedTimes]
  | e :: es, s, hsort, hge => by
    have hsort' := (List.pairwise_cons.mp hsort).2
    have hhead := (List.pairwise_cons.mp hsort).1
    rcases step_throttle_cases s e with ⟨hnone, hlast⟩ | ⟨em, hsome, htime, hlast, hgap⟩
    · have ih := run_spacing es (step s e).1 hsort'
        (fun e' he' => by
          rw [hlast]; exact hge e' (List.mem_cons_of_mem _ he'))
      rw [hlast] at ih
      rw [run_cons, hnone]
      simpa using ih
    · have ih := run_spacing es (step s e).1 hsort'
        (fun e' he' => by rw [hlast]; exact hhead e' he')
      rw [hlast] at ih
      rw [run_cons, hsome]
      simp only [Option.toList_some, List.singleton_append]
      cases hf : em.forced
      · rw [nonforcedTimes_cons_nonforced hf]
        constructor
        · refine List.chain'_cons'.mpr ⟨?_, ih.1⟩
          intro b hb
          have hb2 := ih.2 b (Option.mem_def.mp hb)
          rw [htime]
          omega
        · intro t ht
          simp only [List.head?_cons, Option.some.injEq] at ht
          subst ht
          rw [htime]
          exact hgap hf
      · rw [nonforcedTimes_cons_forced hf]
        refine ⟨ih.1, fun t ht => ?_⟩
        have h2 := ih.2 t ht
        have h3 : s.lastUpdateTime ≤ e.now := hge e (List.mem_cons_self _ _)
        omega

/-- Spacing is transitive along the list. -/
theorem chain_spaced_pairwise {l : List ℕ}
    (h : List.Chain' (fun t1 t2 => t1 + UPDATE_THROTTLE_MS ≤ t2) l) :
    List.Pairwise (fun t1 t2 => t1 + UPDATE_THROTTLE_MS ≤ t2) l := by
  haveI : IsTrans ℕ (fun t1 t2 => t1 + UPDATE_THROTTLE_MS ≤ t2) :=
    ⟨fun x y z h1 h2 => by omega⟩
  exact List.chain'_iff_pairwise.mp h

/-- A list of pairwise throttle-spaced instants inside `[a, b]` has at most
`(b - a) / UPDATE_THROTTLE_MS + 1` members. -/
theorem pairwise_spaced_count :
    ∀ (l : List ℕ) (a b : ℕ),
      List.Pairwise (fun t1 t2 => t1 + UPDATE_THROTTLE_MS ≤ t2) l →
      (∀ t ∈ l, a ≤ t ∧ t ≤ b) →
      l.length ≤ (b - a) / UPDATE_THROTTLE_MS + 1
  | [], a, b, _, _ => by simp
  | t :: rest, a, b, hp, hmem => by
    rcases List.pairwise_cons.mp hp with ⟨hgap, hrest⟩
    rcases hmem t (List.mem_cons_self _ _) with ⟨hat, htb⟩
    rcases rest with _ | ⟨u, rest2⟩
    · simp
    · have hmem2 : ∀ x ∈ u :: rest2, t + UPDATE_THROTTLE_MS ≤ x ∧ x ≤ b :=
        fun x hx => ⟨hgap x hx, (hmem x (List.mem_cons_of_mem _ hx)).2⟩
      have ih := pairwise_spaced_count (u :: rest2) (t + UPDATE_THROTTLE_MS) b
        hrest hmem2
      have hub : t + UPDATE_THROTTLE_MS ≤ b :=
        le_trans (hmem2 u (List.mem_cons_self _ _)).1
          (hmem2 u (List.mem_cons_self _ _)).2
      simp only [List.length_cons] at ih ⊢
      simp only [UPDATE_THROTTLE_MS] at ih hub ⊢
      omega

/-- C2: a non-forced `updateState` call within the throttle interval of the
last recorded emission emits nothing and changes no state; outside it, it
emits one snapshot and records the emission timestamp; consequently, over any
trace of events whose wall clocks are nondecreasing, the number of non-forced
emissions falling in a window `[a, a + W]` is at most
`W / UPDATE_THROTTLE_MS + 1`. -/
theorem nonforced_throttle_window :
    (∀ (now : ℕ) (v : VideoEl) (s : CompState),
       now - s.lastUpdateTime < UPDATE_THROTTLE_MS →
       updateState false now v s = (s, none)) ∧
    (∀ (now : ℕ) (v : VideoEl) (s : CompState),
       ¬ now - s.lastUpdateTime < UPDATE_THROTTLE_MS →
       updateState false now v s =
         ({ s with lastUpdateTime := now }, some (mkState v s.detectedFps))) ∧
    (∀ (cap : Bool) (evs : List EvIn) (a W : ℕ),
       List.Pairwise (fun e1 e2 : EvIn => e1.now ≤ e2.now) evs →
       ((nonforcedTimes (run (initState cap) evs).2).filter
           (fun t => a ≤ t && t ≤ a + W)).length ≤ W / UPDATE_THROTTLE_MS + 1) := by
  refine ⟨fun now v s h => updateState_noop s v now h,
    fun now v s h => updateState_emit s v now h,
    fun cap evs a W hsort => ?_⟩
  have hsp := run_spacing evs (initState cap) hsort (fun e _ => Nat.zero_le _)
  have hpw := chain_spaced_pairwise hsp.1
  have hpwf := hpw.filter (fun t => a ≤ t && t ≤ a + W)
  refine le_trans (pairwise_spaced_count _ a (a + W) hpwf ?_) ?_
  · intro t ht
    have h2 := (List.mem_filter.mp ht).2
    simp only [Bool.and_eq_true, decide_eq_true_eq] at h2
    exact h2
  · simp [Nat.add_sub_cancel_left]

/-- Witness for C2: a non-forced call 10 ms after initialisation is a no-op,
and on a concrete two-event time-update trace the window bound holds. -/
theorem nonforced_throttle_window_witness :
    updateState false 10 elPlaying (initState true) = (initState true, none) ∧
    updateState false 300 elPlaying (initState true) =
      ({ initState true with lastUpdateTime := 300 },
       some (mkState elPlaying (initState true).detectedFps)) ∧
    ((nonforcedTimes
        (run (initState true)
          [⟨.timeupdate, 0, elPlaying⟩, ⟨.timeupdate, 100, elPlaying⟩]).2).filter
        (fun t => 0 ≤ t && t ≤ 0 + 300)).length ≤ 300 / UPDATE_THROTTLE_MS + 1 :=
  ⟨nonforced_throttle_window.1 10 elPlaying (initState true)
     (by norm_num [initState, UPDATE_THROTTLE_MS]),
   nonforced_throttle_window.2.1 300 elPlaying (initState true)
     (by norm_num [initState, UPDATE_THROTTLE_MS]),
   nonforced_throttle_window.2.2 true _ 0 300 (by
     simp [List.pairwise_cons])⟩

/-! ### C3 and C6: the Seek Gate -/

/-- C3: the gate acts only on a non-null target differing from the last
acted-on target; issuing the same target twice in a row changes the position
exactly once (immediately when metadata is loaded) and the second request is
a complete no-op. -/
theorem seek_gate_idempotent :
    (∀ (s : CompState) (v : VideoEl), seekGate none s v = (s, v)) ∧
    (∀ (t : ℚ) (s : CompState) (v : VideoEl), s.lastSeekTo = some t →
       seekGate (some t) s v = (s, v)) ∧
    (∀ (t : ℚ) (s : CompState) (v : VideoEl), s.lastSeekTo ≠ some t →
       seekGate (some t) (seekGate (some t) s v).1 (seekGate (some t) s v).2 =
         seekGate (some t) s v ∧
       (1 ≤ v.readyState →
         (seekGate (some t) s v).2 = { v with currentTime := t })) := by
  refine ⟨fun s v => rfl, fun t s v h => by simp [seekGate, h], fun t s v h => ?_⟩
  constructor
  · by_cases hr : 1 ≤ v.readyState <;> simp [seekGate, h, hr]
  · intro hr
    simp [seekGate, h, hr]

/-- Witness for C3: a fresh instance receiving target `10` twice with
metadata loaded. -/
theorem seek_gate_idempotent_witness :
    seekGate (some 10) (seekGate (some 10) (initState true) elPlaying).1
        (seekGate (some 10) (initState true) elPlaying).2 =
      seekGate (some 10) (initState true) elPlaying ∧
    (seekGate (some 10) (initState true) elPlaying).2 =
      { elPlaying with currentTime := 10 } ∧
    seekGate (some 10) { initState true with lastSeekTo := some 10 } elPlaying =
      ({ initState true with lastSeekTo := some 10 }, elPlaying) :=
  ⟨(seek_gate_idempotent.2.2 10 (initState true) elPlaying (by simp [initState])).1,
   (seek_gate_idempotent.2.2 10 (initState true) elPlaying (by simp [initState])).2
     (by norm_num [elPlaying]),
   seek_gate_idempotent.2.1 10 { initState true with lastSeekTo := some 10 }
     elPlaying rfl⟩

/-- C6: an accepted target is applied immediately when metadata is loaded
(`readyState ≥ 1`); otherwise the element is untouched now, the target is
queued for the one-shot `loadedmetadata` listener, which applies it exactly
once — after metadata fires the queue is empty and firing metadata again
applies nothing. -/
theorem accepted_seek_applied_once :
    ∀ (t : ℚ) (s : CompState) (v : VideoEl), s.lastSeekTo ≠ some t →
      (1 ≤ v.readyState →
        (seekGate (some t) s v).2 = { v with currentTime := t } ∧
        (seekGate (some t) s v).1.pendingSeeks = s.pendingSeeks) ∧
      (¬ 1 ≤ v.readyState →
        (seekGate (some t) s v).2 = v ∧
        (seekGate (some t) s v).1.pendingSeeks = s.pendingSeeks ++ [t] ∧
        (s.pendingSeeks = [] →
          (applyPending (seekGate (some t) s v).1 (seekGate (some t) s v).2).2 =
            { v with currentTime := t }) ∧
        (applyPending (seekGate (some t) s v).1 (seekGate (some t) s v).2).1.pendingSeeks
          = [] ∧
        applyPending
            (applyPending (seekGate (some t) s v).1 (seekGate (some t) s v).2).1
            (applyPending (seekGate (some t) s v).1 (seekGate (some t) s v).2).2 =
          applyPending (seekGate (some t) s v).1 (seekGate (some t) s v).2) := by
  intro t s v h
  constructor
  · intro hr
    simp [seekGate, h, hr]
  · intro hr
    refine ⟨by simp [seekGate, h, hr], by simp [seekGate, h, hr], ?_, ?_, ?_⟩
    · intro hps
      simp [seekGate, h, hr, applyPending, hps]
    · simp [seekGate, h, hr, applyPending]
    · simp [seekGate, h, hr, applyPending]

/-- Witness for C6: target `7` sent before metadata (`readyState = 0`) is
deferred and applied exactly once when metadata becomes available. -/
theorem accepted_seek_applied_once_witness :
    (seekGate (some 7) (initState true) elZero).2 = elZero ∧
    (seekGate (some 7) (initState true) elZero).1.pendingSeeks = [] ++ [7] ∧
    (applyPending (seekGate (some 7) (initState true) elZero).1
        (seekGate (some 7) (initState true) elZero).2).2 =
      { elZero with currentTime := 7 } ∧
    (applyPending (seekGate (some 7) (initState true) elZero).1
        (seekGate (some 7) (initState true) elZero).2).1.pendingSeeks = [] ∧
    (seekGate (some 7) (initState true) elPlaying).2 =
      { elPlaying with currentTime := 7 } := by
  have h := accepted_seek_applied_once 7 (initState true) elZero
    (by simp [initState]) |>.2 (by norm_num [elZero])
  have h2 := accepted_seek_applied_once 7 (initState true) elPlaying
    (by simp [initState]) |>.1 (by norm_num [elPlaying])
  exact ⟨h.1, by simpa [initState] using h.2.1, h.2.2.1 rfl, h.2.2.2.1, h2.1⟩

/-! ### C9: autoplay / loop configuration -/

/-- C9 counterexample: the claim says that after `configure` with host value
`autoplay = false` the element's autoplay flag equals `false`; but the code
(lines 92-100) only ever sets flags on truthy host values, so an
already-true flag survives a `false` host value. -/
theorem config_false_counterexample :
    ¬ ((applyConfig false false
        { elPlaying with autoplay := true }).autoplay = false) := by
  simp [applyConfig]

/-- C9 amended: `configure` sets each flag to the OR of its previous value
with the host value — flags are set when the host value is true and left
unchanged (not cleared) when it is false — and re-applying the same
configuration changes nothing. -/
theorem config_flags_or_idempotent :
    ∀ (a l : Bool) (v : VideoEl),
      (applyConfig a l v).autoplay = (v.autoplay || a) ∧
      (applyConfig a l v).loop = (v.loop || l) ∧
      applyConfig a l (applyConfig a l v) = applyConfig a l v := by
  intro a l v
  cases a <;> cases l <;> simp [applyConfig]

/-! ### The FPS Estimator: invariants -/

/-- `updateState` changes only the emission timestamp. -/
theorem updateState_fields (force : Bool) (now : ℕ) (v : VideoEl) (s : CompState) :
    (updateState force now v s).1.detectedFps = s.detectedFps ∧
    (updateState force now v s).1.fpsDetectionComplete = s.fpsDetectionComplete ∧
    (updateState force now v s).1.samplerPending = s.samplerPending ∧
    (updateState force now v s).1.playListenerArmed = s.playListenerArmed ∧
    (updateState force now v s).1.pendingSeeks = s.pendingSeeks := by
  unfold updateState
  split <;> simp

/-- The reachability invariant of the estimator session: the fallback rate is
in force until convergence, and after convergence no frame callback is
pending. -/
def Inv (s : CompState) : Prop :=
  (s.fpsDetectionComplete = false → s.detectedFps = 30) ∧
  (s.fpsDetectionComplete = true → s.samplerPending = false)

theorem Inv_congr {s s' : CompState} (h : Inv s)
    (hd : s'.detectedFps = s.detectedFps)
    (hc : s'.fpsDetectionComplete = s.fpsDetectionComplete)
    (hsp : s'.samplerPending = s.samplerPending) : Inv s' := by
  rw [Inv, hd, hc, hsp]
  exact h

/-- `Inv` is preserved by every event. -/
theorem Inv_step (s : CompState) (e : EvIn) (h : Inv s) : Inv (step s e).1 := by
  rcases e with ⟨ev, now, v⟩
  obtain ⟨h1, h2⟩ := h
  cases ev
  case mount | pause | seeked | ended =>
    exact Inv_congr ⟨h1, h2⟩ (updateState_fields true now v s).1
      (updateState_fields true now v s).2.1 (updateState_fields true now v s).2.2.1
  case loadedmetadata =>
    exact ⟨h1, h2⟩
  case play =>
    by_cases hpl : s.playListenerArmed = true
    · refine ⟨?_, ?_⟩ <;>
        simp only [step, emitOf, updateState_forced, hpl, if_true]
      · exact h1
      · intro hc
        simp [hc]
    · refine ⟨?_, ?_⟩ <;>
        simp only [step, emitOf, updateState_forced, hpl, if_false]
      · exact h1
      · exact h2
  case timeupdate =>
    exact Inv_congr ⟨h1, h2⟩ (updateState_fields false now v s).1
      (updateState_fields false now v s).2.1 (updateState_fields false now v s).2.2.1
  case raf =>
    by_cases hp : (!v.paused && !v.ended) = true
    · have hf := updateState_fields false now v s
      refine Inv_congr ⟨h1, h2⟩ ?_ ?_ ?_ <;> simp [step, hp, emitOf, hf.1, hf.2.1, hf.2.2.1]
    · exact Inv_congr ⟨h1, h2⟩ (by simp [step, hp]) (by simp [step, hp]) (by simp [step, hp])
  case frame =>
    by_cases hsp : s.samplerPending = true
    · by_cases hcv : SAMPLE_DURATION_MS ≤
          now - ({ s with samplerPending := false } : CompState).startTime.getD now
      · obtain ⟨s', hcf, -, hcomp, hsp', -⟩ := countFrame_conv (v := v) hcv
        refine ⟨?_, ?_⟩ <;> simp only [step, hsp, if_true, hcf, emitOf]
        · intro hc0
          rw [hcomp] at hc0
          simp at hc0
        · intro _
          exact hsp'
      · have hcr := countFrame_rearm (v := v) hcv
        refine ⟨?_, ?_⟩ <;> simp only [step, hsp, if_true, hcr, emitOf]
        · intro _
          exact h1 (by
            have h3 : s.fpsDetectionComplete ≠ true := fun hc0 => by
              rw [h2 hc0] at hsp
              simp at hsp
            simpa using h3)
        · intro hc0
          have h4 := h2 (by simpa using hc0)
          rw [h4] at hsp
          simp at hsp
    · exact Inv_congr ⟨h1, h2⟩ (by simp [step, hsp]) (by simp [step, hsp])
        (by simp [step, hsp])

/-- Every emitted snapshot carries the rate held by the post-step state: the
rate known at emission time. -/
theorem step_emit_fps (s : CompState) (e : EvIn) (em : Emission)
    (h : (step s e).2 = some em) : em.snap.fps = (step s e).1.detectedFps := by
  rcases e with ⟨ev, now, v⟩
  cases ev
  case mount | pause | seeked | ended | loadedmetadata =>
    obtain ⟨snap, hs, rfl⟩ := emitOf_some h
    rw [updateState_snap_eq hs]
    simp [step, emitOf, updateState_forced, mkState]
  case play =>
    obtain ⟨snap, hs, rfl⟩ := emitOf_some h
    rw [updateState_snap_eq hs]
    by_cases hpl : s.playListenerArmed = true <;>
      simp [step, emitOf, updateState_forced, hpl, mkState]
  case timeupdate =>
    obtain ⟨snap, hs, rfl⟩ := emitOf_some h
    rw [updateState_snap_eq hs]
    simp [step, emitOf, mkState, (updateState_fields false now v s).1]
  case raf =>
    by_cases hp : (!v.paused && !v.ended) = true
    · have hstep : step s ⟨.raf, now, v⟩ =
          emitOf ⟨.raf, now, v⟩ false v (updateState false now v s) := by
        simp [step, hp]
      rw [hstep] at h ⊢
      obtain ⟨snap, hs, rfl⟩ := emitOf_some h
      rw [updateState_snap_eq hs]
      simp [emitOf, mkState, (updateState_fields false now v s).1]
    · have hstep : step s ⟨.raf, now, v⟩ = (s, none) := by simp [step, hp]
      rw [hstep] at h
      simp at h
  case frame =>
    by_cases hsp : s.samplerPending = true
    · have hstep : step s ⟨.frame, now, v⟩ =
          emitOf ⟨.frame, now, v⟩ true v
            (countFrame now v { s with samplerPending := false }) := by
        simp [step, hsp]
      rw [hstep] at h ⊢
      by_cases hcv : SAMPLE_DURATION_MS ≤
          now - ({ s with samplerPending := false } : CompState).startTime.getD now
      · obtain ⟨s', hcf, -, -, -, -⟩ := countFrame_conv (v := v) hcv
        rw [hcf] at h ⊢
        obtain ⟨snap, hs, rfl⟩ := emitOf_some h
        simp only [Option.some.injEq] at hs
        subst hs
        simp [emitOf, mkState]
      · rw [countFrame_rearm (v := v) hcv] at h
        simp [emitOf] at h
    · have hstep : step s ⟨.frame, now, v⟩ = (s, none) := by simp [step, hsp]
      rw [hstep] at h
      simp at h

/-- While no seek is queued, every emission is computed from the element
readings delivered with the event. -/
theorem step_emission_el (s : CompState) (e : EvIn) (em : Emission)
    (hps : s.pendingSeeks = []) (h : (step s e).2 = some em) : em.el = e.v := by
  rcases e with ⟨ev, now, v⟩
  cases ev
  case loadedmetadata =>
    simp only [step, applyPending, hps] at h
    obtain ⟨snap, hs, rfl⟩ := emitOf_some h
    rfl
  case raf =>
    simp only [step] at h
    split at h
    · obtain ⟨snap, hs, rfl⟩ := emitOf_some h
      rfl
    · simp at h
  case frame =>
    simp only [step] at h
    split at h
    · obtain ⟨snap, hs, rfl⟩ := emitOf_some h
      rfl
    · simp at h
  all_goals
    obtain ⟨snap, hs, rfl⟩ := emitOf_some h
    rfl

/-- After convergence the detected rate and the converged mark are frozen by
every further event. -/
theorem step_complete_frozen (s : CompState) (e : EvIn) (h : Inv s)
    (hc : s.fpsDetectionComplete = true) :
    (step s e).1.detectedFps = s.detectedFps ∧
    (step s e).1.fpsDetectionComplete = true := by
  rcases e with ⟨ev, now, v⟩
  cases ev
  case mount | pause | seeked | ended =>
    exact ⟨(updateState_fields true now v s).1,
      (updateState_fields true now v s).2.1.trans hc⟩
  case loadedmetadata =>
    exact ⟨rfl, hc⟩
  case play =>
    by_cases hpl : s.playListenerArmed = true <;>
      simp [step, emitOf, updateState_forced, hpl, hc]
  case timeupdate =>
    exact ⟨(updateState_fields false now v s).1,
      (updateState_fields false now v s).2.1.trans hc⟩
  case raf =>
    by_cases hp : (!v.paused && !v.ended) = true <;>
      simp [step, hp, emitOf, (updateState_fields false now v s).1,
        (updateState_fields false now v s).2.1, hc]
  case frame =>
    have hsp := h.2 hc
    simp [step, hsp, hc]

/-- With the sampler never armed (no frame-timing capability), every event
preserves the fallback state. -/
theorem step_nocap_fields (s : CompState) (e : EvIn)
    (hsp : s.samplerPending = false) (hpl : s.playListenerArmed = false) :
    (step s e).1.detectedFps = s.detectedFps ∧
    (step s e).1.fpsDetectionComplete = s.fpsDetectionComplete ∧
    (step s e).1.samplerPending = false ∧
    (step s e).1.playListenerArmed = false := by
  rcases e with ⟨ev, now, v⟩
  cases ev
  case mount | pause | seeked | ended =>
    have hf := updateState_fields true now v s
    exact ⟨hf.1, hf.2.1, hf.2.2.1.trans hsp, hf.2.2.2.1.trans hpl⟩
  case loadedmetadata =>
    exact ⟨rfl, rfl, hsp, hpl⟩
  case play =>
    simp only [step, emitOf, updateState_forced, hpl]
    simp [hsp, hpl]
  case timeupdate =>
    have hf := updateState_fields false now v s
    exact ⟨hf.1, hf.2.1, hf.2.2.1.trans hsp, hf.2.2.2.1.trans hpl⟩
  case raf =>
    by_cases hp : (!v.paused && !v.ended) = true <;>
      simp [step, hp, emitOf, updateState_fields false now v s, hsp, hpl,
        (updateState_fields false now v s).1, (updateState_fields false now v s).2.1,
        (updateState_fields false now v s).2.2.1, (updateState_fields false now v s).2.2.2.1]
  case frame =>
    simp [step, hsp, hpl]

/-! ### C4 and C5 -/

/-- C4: on the first play event of a capable instance the sampler is armed;
at the first frame callback whose elapsed sampling time reaches
`SAMPLE_DURATION_MS`, the rate becomes
`round(frame_count / elapsed_seconds)`, the session converges, and exactly
one forced emission carrying the updated rate follows; every emission of a
still-unconverged instance carries the fallback rate 30; and once converged,
no event — including further play events — ever changes the rate or re-arms
the sampler, and all later emissions carry the converged rate. -/
theorem fps_detection_convergence :
    (∀ (now : ℕ) (v : VideoEl),
       (step (initState true) ⟨.play, now, v⟩).1.samplerPending = true) ∧
    (∀ (s : CompState) (now : ℕ) (v : VideoEl) (st : ℕ), Inv s →
       s.samplerPending = true → s.startTime = some st →
       SAMPLE_DURATION_MS ≤ now - st →
       (step s ⟨.frame, now, v⟩).1.detectedFps =
         (jsRound (((s.frameCount + 1 : ℕ) : ℚ) / (((now - st : ℕ) : ℚ) / 1000)) : ℚ) ∧
       (step s ⟨.frame, now, v⟩).1.fpsDetectionComplete = true ∧
       (∃ em, (step s ⟨.frame, now, v⟩).2 = some em ∧ em.forced = true ∧
         em.snap.fps = (step s ⟨.frame, now, v⟩).1.detectedFps)) ∧
    (∀ (s : CompState) (e : EvIn) (em : Emission), Inv s →
       (step s e).1.fpsDetectionComplete = false → (step s e).2 = some em →
       em.snap.fps = 30) ∧
    (∀ (s : CompState) (evs : List EvIn), Inv s → s.fpsDetectionComplete = true →
       (run s evs).1.fpsDetectionComplete = true ∧
       (run s evs).1.detectedFps = s.detectedFps ∧
       (run s evs).1.samplerPending = false ∧
       ∀ em ∈ (run s evs).2, em.snap.fps = s.detectedFps) := by
  refine ⟨?_, ?_, ?_, ?_⟩
  · intro now v
    simp [step, emitOf, updateState_forced, initState]
  · intro s now v st hInv hsp hst hcw
    have hc0 : SAMPLE_DURATION_MS ≤
        now - ({ s with samplerPending := false } : CompState).startTime.getD now := by
      simpa [hst] using hcw
    obtain ⟨s', hcf, -, hcomp, -, hfps⟩ := countFrame_conv (v := v) hc0
    have hstep : step s ⟨.frame, now, v⟩ =
        emitOf ⟨.frame, now, v⟩ true v
          (countFrame now v { s with samplerPending := false }) := by
      simp [step, hsp]
    rw [hstep, hcf]
    refine ⟨?_, hcomp, ⟨_, rfl, rfl, rfl⟩⟩
    rw [show (emitOf ⟨.frame, now, v⟩ true v (s', some (mkState v s'.detectedFps))).1 = s'
      from rfl]
    rw [hfps]
    simp [hst]
  · intro s e em hInv hcomp hsome
    rw [step_emit_fps s e em hsome, (Inv_step s e hInv).1 hcomp]
  · intro s evs hInv hcomp
    have H := run_invariant
      (fun s2 => Inv s2 ∧ s2.fpsDetectionComplete = true ∧
        s2.detectedFps = s.detectedFps)
      (fun em => em.snap.fps = s.detectedFps) (fun _ => True)
      (fun s2 e hP _ => by
        obtain ⟨hI, hcp, hfps⟩ := hP
        have hfz := step_complete_frozen s2 e hI hcp
        refine ⟨⟨Inv_step s2 e hI, hfz.2, hfz.1.trans hfps⟩, fun em hem => ?_⟩
        show em.snap.fps = s.detectedFps
        rw [step_emit_fps s2 e em hem, hfz.1, hfps])
      evs s (fun _ _ => trivial) ⟨hInv, hcomp, rfl⟩
    exact ⟨H.1.2.1, H.1.2.2, H.1.1.2 H.1.2.1, H.2⟩

/-- A concrete instance state mid-sampling: session started at clock 0 with
29 frames counted, sampler armed, detection not yet converged. -/
def sMid : CompState :=
  { detectedFps := 30, fpsDetectionComplete := false, lastUpdateTime := 0,
    lastSeekTo := none, startTime := some 0, frameCount := 29,
    playListenerArmed := false, samplerPending := true, pendingSeeks := [] }

/-- Witness for C4: the first play arms a fresh capable instance; from
`sMid`, the frame callback at clock 1000 converges with the rounded rate and
a converged instance never changes its rate again (empty continuation). -/
theorem fps_detection_convergence_witness :
    (step (initState true) ⟨.play, 0, elPlaying⟩).1.samplerPending = true ∧
    (step sMid ⟨.frame, 1000, elPlaying⟩).1.detectedFps =
      (jsRound (((sMid.frameCount + 1 : ℕ) : ℚ) / (((1000 - 0 : ℕ) : ℚ) / 1000)) : ℚ) ∧
    (step sMid ⟨.frame, 1000, elPlaying⟩).1.fpsDetectionComplete = true ∧
    (run { sMid with fpsDetectionComplete := true, samplerPending := false }
        []).1.detectedFps = 30 ∧
    ({ time := 0, forced := true, el := elPlaying,
       snap := mkState elPlaying 30 } : Emission).snap.fps = 30 := by
  have hInv : Inv sMid := ⟨fun _ => rfl, fun hx => by simp [sMid] at hx⟩
  have h2 := fps_detection_convergence.2.1 sMid 1000 elPlaying 0 hInv rfl rfl
    (by norm_num [SAMPLE_DURATION_MS, sMid])
  have hInv2 : Inv { sMid with fpsDetectionComplete := true, samplerPending := false } :=
    ⟨fun hx => by simp at hx, fun _ => rfl⟩
  have h4 := fps_detection_convergence.2.2.2
    { sMid with fpsDetectionComplete := true, samplerPending := false } [] hInv2 rfl
  exact ⟨fps_detection_convergence.1 0 elPlaying, h2.1, h2.2.1, h4.2.1,
    fps_detection_convergence.2.2.1 (initState true) ⟨.mount, 0, elPlaying⟩
      { time := 0, forced := true, el := elPlaying, snap := mkState elPlaying 30 }
      ⟨fun _ => rfl, fun hx => by simp [initState] at hx⟩
      (by simp [step, emitOf, updateState_forced, initState])
      (by simp [step, emitOf, updateState_forced, initState])⟩

/-- C5: when `requestVideoFrameCallback` is absent, `detectFps` silently does
nothing (no error path exists in the embedding — every operation is total):
over the whole instance lifetime the rate stays at the fallback 30, detection
never converges, no sampler is ever armed, and every emitted snapshot carries
`fps = 30`, so no convergence emission ever fires. -/
theorem no_capability_fallback :
    ∀ (evs : List EvIn),
      (run (initState false) evs).1.detectedFps = 30 ∧
      (run (initState false) evs).1.fpsDetectionComplete = false ∧
      (run (initState false) evs).1.samplerPending = false ∧
      ∀ em ∈ (run (initState false) evs).2, em.snap.fps = 30 := by
  intro evs
  have H := run_invariant
    (fun s => s.detectedFps = 30 ∧ s.fpsDetectionComplete = false ∧
      s.samplerPending = false ∧ s.playListenerArmed = false)
    (fun em => em.snap.fps = 30) (fun _ => True)
    (fun s e hP _ => by
      obtain ⟨hd, hcp, hsp, hpl⟩ := hP
      have hf := step_nocap_fields s e hsp hpl
      refine ⟨⟨hf.1.trans hd, hf.2.1.trans hcp, hf.2.2.1, hf.2.2.2⟩, fun em hem => ?_⟩
      show em.snap.fps = 30
      rw [step_emit_fps s e em hem, hf.1, hd])
    evs (initState false) (fun _ _ => trivial) ⟨rfl, rfl, rfl, rfl⟩
  exact ⟨H.1.1, H.1.2.1, H.1.2.2.1, H.2⟩

/-- Witness for C5: on a concrete trace — mount, play, a stray frame
callback, a time update — the incapable instance ends unconverged at rate 30
and its emitted snapshot carries `fps = 30`. -/
theorem no_capability_fallback_witness :
    (run (initState false)
      [⟨.mount, 0, elPlaying⟩, ⟨.play, 10, elPlaying⟩, ⟨.frame, 20, elPlaying⟩,
       ⟨.timeupdate, 30, elPlaying⟩]).1.detectedFps = 30 ∧
    ({ time := 0, forced := true, el := elPlaying,
       snap := mkState elPlaying 30 } : Emission).snap.fps = 30 :=
  ⟨(no_capability_fallback _).1,
   (no_capability_fallback
      [⟨.mount, 0, elPlaying⟩, ⟨.play, 10, elPlaying⟩, ⟨.frame, 20, elPlaying⟩,
       ⟨.timeupdate, 30, elPlaying⟩]).2.2.2 _
     (by simp [run, step, emitOf, updateState_forced, initState])⟩

/-! ### C7 -/

/-- The trace refuting strict positivity of `fps`: play at clock 0 arms the
sampler; frame callbacks at clocks 0 and 4001 give
`Math.round(2 / 4.001) = 0` as the detected rate. -/
def ex7events : List EvIn :=
  [⟨.play, 0, elPlaying⟩, ⟨.frame, 0, elPlaying⟩, ⟨.frame, 4001, elPlaying⟩]

/-- C7 counterexample: the claim `fps > 0` for every emitted snapshot fails —
when the two sampled frame callbacks are 4001 ms apart (e.g. playback paused
mid-sampling), the converged rate rounds down to `0` and the convergence
emission carries `fps = 0`. -/
theorem fps_positive_counterexample :
    ¬ (∀ em ∈ (run (initState true) ex7events).2, 0 < em.snap.fps) := by
  intro hall
  have h3 : (run (initState true) ex7events).2.map (fun em => em.snap.fps)
      = [30, 0] := by
    simp only [ex7events, run, step, initState, elPlaying, updateState, countFrame,
      mkState, emitOf, getCurrentFrame, orZero, durOrZero, jsRound,
      UPDATE_THROTTLE_MS, SAMPLE_DURATION_MS]
    norm_num
  have h2 : ∀ x ∈ (run (initState true) ex7events).2.map (fun em => em.snap.fps),
      0 < x := by
    intro x hx
    obtain ⟨em, hem, rfl⟩ := List.mem_map.mp hx
    exact hall em hem
  rw [h3] at h2
  exact absurd (h2 0 (by simp)) (lt_irrefl 0)

/-- DOM-valid element readings: `currentTime` is clamped nonnegative and a
loaded `duration` is nonnegative. -/
def validEl (v : VideoEl) : Prop :=
  0 ≤ v.currentTime ∧ ∀ d, v.duration = some d → 0 ≤ d

theorem jsRound_nonneg {x : ℚ} (h : 0 ≤ x) : 0 ≤ jsRound x := by
  unfold jsRound
  exact Int.le_floor.mpr (by push_cast; linarith)

/-- The bounds of one snapshot, given DOM-valid readings and a nonnegative
rate. -/
theorem mkState_bounds (v : VideoEl) (fps : ℚ) (hv : validEl v) (hf : 0 ≤ fps) :
    0 ≤ (mkState v fps).current_time ∧ 0 ≤ (mkState v fps).frame_number ∧
    0 ≤ (mkState v fps).duration ∧ 0 ≤ (mkState v fps).fps ∧
    (mkState v fps).is_playing = (!v.paused && !v.ended) := by
  refine ⟨?_, ?_, ?_, hf, rfl⟩
  · simpa [mkState, orZero_eq] using hv.1
  · show (0 : ℤ) ≤ getCurrentFrame v fps
    exact Int.le_floor.mpr (by push_cast; exact mul_nonneg hv.1 hf)
  · show 0 ≤ durOrZero v.duration
    rcases hdur : v.duration with _ | d
    · simp [durOrZero]
    · have hd := hv.2 d hdur
      simp only [durOrZero]
      split
      · norm_num
      · exact hd

/-- The detected rate never becomes negative. -/
theorem step_fps_nonneg (s : CompState) (e : EvIn) (h : 0 ≤ s.detectedFps) :
    0 ≤ (step s e).1.detectedFps := by
  rcases e with ⟨ev, now, v⟩
  cases ev
  case mount | pause | seeked | ended =>
    exact le_of_le_of_eq h (updateState_fields true now v s).1.symm
  case loadedmetadata =>
    exact h
  case play =>
    by_cases hpl : s.playListenerArmed = true <;>
      simp [step, emitOf, updateState_forced, hpl, h]
  case timeupdate =>
    exact le_of_le_of_eq h (updateState_fields false now v s).1.symm
  case raf =>
    by_cases hp : (!v.paused && !v.ended) = true <;>
      simp [step, hp, emitOf, (updateState_fields false now v s).1, h]
  case frame =>
    by_cases hsp : s.samplerPending = true
    · have hstep : step s ⟨.frame, now, v⟩ =
          emitOf ⟨.frame, now, v⟩ true v
            (countFrame now v { s with samplerPending := false }) := by
        simp [step, hsp]
      rw [hstep]
      by_cases hcv : SAMPLE_DURATION_MS ≤
          now - ({ s with samplerPending := false } : CompState).startTime.getD now
      · obtain ⟨s', hcf, -, -, -, hfps⟩ := countFrame_conv (v := v) hcv
        rw [hcf]
        show 0 ≤ s'.detectedFps
        rw [hfps]
        have hj : 0 ≤ jsRound ((((if ({ s with samplerPending := false } :
            CompState).startTime.isNone then 0 else
            ({ s with samplerPending := false } : CompState).frameCount) + 1 : ℕ) : ℚ) /
            (((now - ({ s with samplerPending := false } :
              CompState).startTime.getD now : ℕ) : ℚ) / 1000)) :=
          jsRound_nonneg (div_nonneg (Nat.cast_nonneg _)
            (div_nonneg (Nat.cast_nonneg _) (by norm_num)))
        exact_mod_cast hj
      · rw [countFrame_rearm (v := v) hcv]
        exact h
    · simp [step, hsp, h]

/-- No event ever queues a deferred seek (only the host-render seek gate
does, and it is not an event of the trace machine). -/
theorem step_pendingSeeks (s : CompState) (e : EvIn) (h : s.pendingSeeks = []) :
    (step s e).1.pendingSeeks = [] := by
  rcases e with ⟨ev, now, v⟩
  cases ev
  case mount | pause | seeked | ended =>
    exact (updateState_fields true now v s).2.2.2.2.trans h
  case loadedmetadata =>
    rfl
  case play =>
    by_cases hpl : s.playListenerArmed = true <;>
      simp [step, emitOf, updateState_forced, hpl, h]
  case timeupdate =>
    exact (updateState_fields false now v s).2.2.2.2.trans h
  case raf =>
    by_cases hp : (!v.paused && !v.ended) = true <;>
      simp [step, hp, emitOf, (updateState_fields false now v s).2.2.2.2, h]
  case frame =>
    by_cases hsp : s.samplerPending = true
    · have hstep : step s ⟨.frame, now, v⟩ =
          emitOf ⟨.frame, now, v⟩ true v
            (countFrame now v { s with samplerPending := false }) := by
        simp [step, hsp]
      rw [hstep]
      by_cases hcv : SAMPLE_DURATION_MS ≤
          now - ({ s with samplerPending := false } : CompState).startTime.getD now
      · simp only [countFrame, hcv, if_true, updateState_forced, emitOf]
        exact h
      · rw [countFrame_rearm (v := v) hcv]
        exact h
    · simp [step, hsp, h]

/-- C7 amended: every emitted snapshot satisfies the data-model bounds with
`fps ≥ 0` in place of `fps > 0` (strict positivity fails after a degenerate
sampling window, see the counterexample): `current_time ≥ 0`,
`frame_number ≥ 0`, `duration ≥ 0`, `fps ≥ 0`, and `is_playing` is true iff
the element is neither paused nor ended — for DOM-valid element readings. -/
theorem emitted_snapshot_bounds :
    ∀ (cap : Bool) (evs : List EvIn), (∀ e ∈ evs, validEl e.v) →
      ∀ em ∈ (run (initState cap) evs).2,
        0 ≤ em.snap.current_time ∧ 0 ≤ em.snap.frame_number ∧
        0 ≤ em.snap.duration ∧ 0 ≤ em.snap.fps ∧
        em.snap.is_playing = (!em.el.paused && !em.el.ended) := by
  intro cap evs hval
  refine (run_invariant
    (fun s => 0 ≤ s.detectedFps ∧ s.pendingSeeks = [])
    (fun em => 0 ≤ em.snap.current_time ∧ 0 ≤ em.snap.frame_number ∧
      0 ≤ em.snap.duration ∧ 0 ≤ em.snap.fps ∧
      em.snap.is_playing = (!em.el.paused && !em.el.ended))
    (fun e => validEl e.v)
    ?_ evs (initState cap) hval ⟨by norm_num [initState], rfl⟩).2
  intro s e hP hE
  refine ⟨⟨step_fps_nonneg s e hP.1, step_pendingSeeks s e hP.2⟩,
    fun em' hem' => ?_⟩
  have hshape := step_emission_shape s e em' hem'
  have hel := step_emission_el s e em' hP.2 hem'
  have hfn : 0 ≤ em'.snap.fps := by
    rw [step_emit_fps s e em' hem']
    exact step_fps_nonneg s e hP.1
  have hb := mkState_bounds e.v em'.snap.fps hE hfn
  rw [hel] at hshape
  show 0 ≤ em'.snap.current_time ∧ 0 ≤ em'.snap.frame_number ∧
    0 ≤ em'.snap.duration ∧ 0 ≤ em'.snap.fps ∧
    em'.snap.is_playing = (!em'.el.paused && !em'.el.ended)
  rw [hshape, hel]
  exact hb

theorem validEl_elPlaying : validEl elPlaying := by
  refine ⟨by norm_num [elPlaying], fun d hd => ?_⟩
  simp only [elPlaying, Option.some.injEq] at hd
  rw [← hd]
  norm_num

/-- Witness for C7 (amended) on the one-event mount trace. -/
theorem emitted_snapshot_bounds_witness :
    0 ≤ ({ time := 0, forced := true, el := elPlaying,
           snap := mkState elPlaying 30 } : Emission).snap.fps ∧
    ({ time := 0, forced := true, el := elPlaying,
       snap := mkState elPlaying 30 } : Emission).snap.is_playing =
      (!elPlaying.paused && !elPlaying.ended) := by
  have h := emitted_snapshot_bounds true [⟨.mount, 0, elPlaying⟩]
    (by intro e he
        simp only [List.mem_singleton] at he
        subst he
        exact validEl_elPlaying)
    { time := 0, forced := true, el := elPlaying, snap := mkState elPlaying 30 }
    (by simp [run, step, emitOf, updateState_forced, initState])
  exact ⟨h.2.2.2.1, h.2.2.2.2⟩

/-! ### C8: host-side source preparation (`_prepare_video_source`,
`video_player`, lines 278-402 of `video_player.py`)

The Python standard library collaborators — the filesystem, `base64.b64encode`
and `mimetypes.guess_type` — are passed as explicit parameters `fs`, `b64`
and `guess`; file contents and encodings are modelled as strings. -/

/-- The exceptions `_prepare_video_source` can raise. -/
inductive PrepError
  | fileNotFound (msg : String)
  | typeError (msg : String)
deriving DecidableEq, Repr

/-- The runtime type of the `source` argument: `bytes`, `pathlib.Path`
(stringified at line 290), `str`, or anything else. -/
inductive PySource
  | bytes (data : String)
  | path (p : String)
  | str (s : String)
  | unsupported (tyName : String)
deriving DecidableEq, Repr

/-- `_get_mime_type` (lines 272-275): `mimetypes.guess_type` with fallback
`video/mp4`. -/
def get_mime_type (guess : String → Option String) (file_path : String) :
    String :=
  (guess file_path).getD "video/mp4"

/-- Python `str.startswith`, embedded on the character sequence. -/
def pyStartsWith (s pre : String) : Bool :=
  s.data.take pre.data.length == pre.data

/-- The pass-through test at line 294: `source.startswith(("data:",
"http://", "https://", "blob:"))`. -/
def isPassThrough (s : String) : Bool :=
  pyStartsWith s "data:" || pyStartsWith s "http://" ||
    pyStartsWith s "https://" || pyStartsWith s "blob:"

/-- The string branch of `_prepare_video_source` (lines 292-305). -/
def prepareStr (fs : String → Option String) (b64 : String → String)
    (guess : String → Option String) (s : String) : Except PrepError String :=
  if isPassThrough s then .ok s
  else
    match fs s with
    | some content =>
        .ok ("data:" ++ get_mime_type guess s ++ ";base64," ++ b64 content)
    | none => .error (.fileNotFound ("Video file not found: " ++ s))

/-- `_prepare_video_source` (lines 278-307). -/
def prepare_video_source (fs : String → Option String) (b64 : String → String)
    (guess : String → Option String) : PySource → Except PrepError String
  | .bytes d => .ok ("data:video/mp4;base64," ++ b64 d)
  | .path p => prepareStr fs b64 guess p
  | .str s => prepareStr fs b64 guess s
  | .unsupported t => .error (.typeError ("Unsupported source type: " ++ t))

/-- The `data` dict handed to the registered component (lines 391-398): built
only after source preparation succeeded. -/
structure ComponentCall where
  video_src : String
  seek_to : Option ℚ
  height : ℕ
  autoplay : Bool
  loop : Bool
deriving DecidableEq, Repr

/-- `video_player` (lines 310-402) up to the component invocation: source
preparation runs first (line 379) and any exception propagates before the
component call is constructed, so an error produces no `ComponentCall` and no
partial state. -/
def video_player (fs : String → Option String) (b64 : String → String)
    (guess : String → Option String) (source : PySource) (seek_to : Option ℚ)
    (height : ℕ) (autoplay loop : Bool) : Except PrepError ComponentCall :=
  (prepare_video_source fs b64 guess source).map fun src =>
    { video_src := src, seek_to := seek_to, height := height,
      autoplay := autoplay, loop := loop }

/-- C8: for every local file path that does not exist (and is not a
pass-through URL), `video_player` raises `FileNotFoundError` before any
component is constructed — the result is the error alone, no
`ComponentCall`; for existing files, pass-through strings and raw bytes no
such error is raised. -/
theorem missing_file_prep_error :
    ∀ (fs : String → Option String) (b64 : String → String)
      (guess : String → Option String) (p q : String) (content d : String)
      (seek : Option ℚ) (h : ℕ) (a l : Bool),
      (isPassThrough p = false → fs p = none →
        video_player fs b64 guess (.path p) seek h a l =
          .error (.fileNotFound ("Video file not found: " ++ p)) ∧
        video_player fs b64 guess (.str p) seek h a l =
          .error (.fileNotFound ("Video file not found: " ++ p))) ∧
      (fs q = some content →
        (∃ call, video_player fs b64 guess (.str q) seek h a l = .ok call) ∧
        (∃ call, video_player fs b64 guess (.path q) seek h a l = .ok call)) ∧
      (isPassThrough q = true →
        video_player fs b64 guess (.str q) seek h a l =
          .ok { video_src := q, seek_to := seek, height := h,
                autoplay := a, loop := l }) ∧
      (∃ call, video_player fs b64 guess (.bytes d) seek h a l = .ok call) := by
  intro fs b64 guess p q content d seek h a l
  refine ⟨fun hpt hfs => ?_, fun hfs => ?_, fun hpt => ?_, ?_⟩
  · constructor <;>
      simp [video_player, prepare_video_source, prepareStr, hpt, hfs, Except.map]
  · constructor <;>
      (by_cases hpt : isPassThrough q = true <;>
        simp [video_player, prepare_video_source, prepareStr, hpt, hfs, Except.map])
  · simp [video_player, prepare_video_source, prepareStr, hpt, Except.map]
  · simp [video_player, prepare_video_source, Except.map]

/-- Witness for C8: with an empty filesystem, the missing local file
"missing.mp4" raises `FileNotFoundError`, while the pass-through URL and raw
bytes succeed. -/
theorem missing_file_prep_error_witness :
    video_player (fun _ => none) (fun c => c) (fun _ => none)
        (.path "missing.mp4") none 400 false false =
      .error (.fileNotFound ("Video file not found: " ++ "missing.mp4")) ∧
    video_player (fun _ => none) (fun c => c) (fun _ => none)
        (.str "https://x/v.mp4") none 400 false false =
      .ok { video_src := "https://x/v.mp4", seek_to := none, height := 400,
            autoplay := false, loop := false } ∧
    (∃ call, video_player (fun _ => some "CONTENT") (fun c => c) (fun _ => none)
        (.path "clip.mov") none 400 false false = .ok call) := by
  have h := missing_file_prep_error (fun _ => none) (fun c => c) (fun _ => none)
    "missing.mp4" "https://x/v.mp4" "" "" none 400 false false
  have h2 := missing_file_prep_error (fun _ => some "CONTENT") (fun c => c)
    (fun _ => none) "missing.mp4" "clip.mov" "CONTENT" "" none 400 false false
  exact ⟨(h.1 (by decide) rfl).1, h.2.2.1 (by decide), (h2.2.1 rfl).2⟩

end VideoStatePlayer
